import Mathlib

/-!
Verification of the SOE/Xero synchronization core of the Workfin backend.

The definitions below are a shallow embedding of
`app/api/v1/endpoints/xero.py` (date normalization) and
`app/services/pms_sync_service.py` (upsert engine and sync orchestrator),
together with the relevant table shapes of `app/db/pms_models.py`.
Machine-level Python values (dict rows, nullable columns) are modelled with
`Option`; exceptions are modelled with `Except`.
-/

namespace Workfin

/-! ## Calendar dates (model of Python `datetime.date`) -/

/-- A civil calendar date (year, month, day), as carried by a Python
`datetime.date` value. -/
structure CivilDate where
  year : Int
  month : Nat
  day : Nat
deriving DecidableEq, Repr

/-- Convert a count of days since the Unix epoch (1970-01-01) to a civil
date in the proleptic Gregorian calendar.  This is the date arithmetic
performed by Python `date.fromtimestamp` after the instant has been
floored to whole days. -/
def civilFromDays (z0 : Int) : CivilDate :=
  let z := z0 + 719468
  let era : Int := Int.fdiv z 146097
  let doe : Nat := (z - era * 146097).toNat
  let yoe : Nat := (doe - doe / 1460 + doe / 36524 - doe / 146096) / 365
  let y : Int := (yoe : Int) + era * 400
  let doy : Nat := doe - (365 * yoe + yoe / 4 - yoe / 100)
  let mp : Nat := (5 * doy + 2) / 153
  let d : Nat := doy - (153 * mp + 2) / 5 + 1
  let m : Nat := if mp < 10 then mp + 3 else mp - 9
  { year := if m ≤ 2 then y + 1 else y, month := m, day := d }

/-- A Python `datetime.datetime` value: its civil date and the
milliseconds elapsed within that day. -/
structure PyDateTime where
  date : CivilDate
  msOfDay : Nat
deriving DecidableEq, Repr

/-- Python `date.fromtimestamp(ms / 1000)` evaluated on a machine whose
local timezone has UTC offset `off` seconds (`fromtimestamp` with no `tz`
argument converts to *local* time).  `Except.error` models the
`OverflowError` / `ValueError` that `fromtimestamp` raises when the
instant falls outside the representable `datetime` range
(years 1 .. 9999). -/
def fromtimestampDate (off : Int) (ms : Nat) : Except String CivilDate :=
  let days : Int := Int.fdiv ((ms : Int) + off * 1000) 86400000
  let d := civilFromDays days
  if d.year < 1 ∨ d.year > 9999 then Except.error "timestamp out of range"
  else Except.ok d

/-- Python `datetime.fromtimestamp(ms / 1000)` in a local timezone with
UTC offset `off` seconds; raises outside the representable range, exactly
like `fromtimestampDate`. -/
def fromtimestampDT (off : Int) (ms : Nat) : Except String PyDateTime :=
  let t : Int := (ms : Int) + off * 1000
  let days : Int := Int.fdiv t 86400000
  let d := civilFromDays days
  if d.year < 1 ∨ d.year > 9999 then Except.error "timestamp out of range"
  else Except.ok { date := d, msOfDay := (t - days * 86400000).toNat }

/-- Numeric value of a list of decimal digit characters. -/
def digitsToNat (ds : List Char) : Nat :=
  ds.foldl (fun a c => a * 10 + (c.toNat - 48)) 0

/-- `re.match` of the pattern `/Date\((\d+)([+-]\d\x7b4\x7d)?\)/` against
the start of a string: `some ms` exactly when the pattern matches, where
`ms` is the captured millisecond integer.  The match is anchored at the
start only; trailing characters after the closing `)/` are allowed, and
the optional four-digit offset group is captured but never used by the
source. -/
def matchDateToken (s : String) : Option Nat :=
  let cs := s.toList
  if cs.take 6 = [ '/', 'D', 'a', 't', 'e', '('] then
    let rest := cs.drop 6
    let ds := rest.takeWhile Char.isDigit
    let r1 := rest.dropWhile Char.isDigit
    if ds.isEmpty then none
    else
      let r2 :=
        match r1 with
        | c :: d1 :: d2 :: d3 :: d4 :: r =>
          if (c = '+' ∨ c = '-') ∧ d1.isDigit ∧ d2.isDigit ∧ d3.isDigit ∧ d4.isDigit
          then r else r1
        | _ => r1
      if r2.take 2 = [ ')', '/'] then some (digitsToNat ds) else none
  else none

/-- Gregorian leap-year test, as applied by Python `datetime` when it
validates a day-of-month. -/
def isLeap (y : Int) : Bool :=
  (y % 4 == 0 && y % 100 != 0) || y % 400 == 0

/-- Number of days in month `m` of year `y` (proleptic Gregorian). -/
def daysInMonth (y : Int) (m : Nat) : Nat :=
  if m = 2 then (if isLeap y then 29 else 28)
  else if m = 4 ∨ m = 6 ∨ m = 9 ∨ m = 11 then 30 else 31

/-- Parse the month and day part `M-D` of a truncated ISO date: one or two
digit groups separated by a dash, consuming the whole input (Python
`strptime` requires the full string to match). -/
def parseMonthDay (cs : List Char) : Option (Nat × Nat) :=
  let mds := cs.takeWhile Char.isDigit
  let r1 := cs.dropWhile Char.isDigit
  if mds.length = 0 ∨ mds.length > 2 then none
  else
    match r1 with
    | '-' :: r2 =>
      let dds := r2.takeWhile Char.isDigit
      let r3 := r2.dropWhile Char.isDigit
      if dds.length = 0 ∨ dds.length > 2 ∨ ¬r3.isEmpty then none
      else some (digitsToNat mds, digitsToNat dds)
    | _ => none

/-- `datetime.strptime(s[:10], "%Y-%m-%d").date()` as a total function:
`%Y` is exactly four digits, `%m` and `%d` are one or two digits, the
truncated string must be consumed entirely, and the day must exist in the
month.  `none` models the `ValueError` that the source catches. -/
def strptimeDate10 (s : String) : Option CivilDate :=
  match s.toList.take 10 with
  | y1 :: y2 :: y3 :: y4 :: '-' :: rest =>
    if y1.isDigit && y2.isDigit && y3.isDigit && y4.isDigit then
      match parseMonthDay rest with
      | some (m, d) =>
        let y : Int := (digitsToNat [y1, y2, y3, y4] : Int)
        if 1 ≤ y ∧ 1 ≤ m ∧ m ≤ 12 ∧ 1 ≤ d ∧ d ≤ daysInMonth y m then
          some { year := y, month := m, day := d }
        else none
      | none => none
    else none
  | _ => none

/-- A strict `YYYY-MM-DD` date, used by the `fromisoformat` model. -/
def isoDateStrict (cs : List Char) : Option CivilDate :=
  match cs with
  | [y1, y2, y3, y4, '-', m1, m2, '-', d1, d2] =>
    if y1.isDigit && y2.isDigit && y3.isDigit && y4.isDigit &&
       m1.isDigit && m2.isDigit && d1.isDigit && d2.isDigit then
      let y : Int := (digitsToNat [y1, y2, y3, y4] : Int)
      let m := digitsToNat [m1, m2]
      let d := digitsToNat [d1, d2]
      if 1 ≤ y ∧ 1 ≤ m ∧ m ≤ 12 ∧ 1 ≤ d ∧ d ≤ daysInMonth y m then
        some { year := y, month := m, day := d }
      else none
    else none
  | _ => none

/-- A strict `HH:MM:SS` time of day, in milliseconds since midnight. -/
def isoTimeStrict (cs : List Char) : Option Nat :=
  match cs with
  | [h1, h2, ':', m1, m2, ':', s1, s2] =>
    if h1.isDigit && h2.isDigit && m1.isDigit && m2.isDigit &&
       s1.isDigit && s2.isDigit then
      let h := digitsToNat [h1, h2]
      let m := digitsToNat [m1, m2]
      let s := digitsToNat [s1, s2]
      if h ≤ 23 ∧ m ≤ 59 ∧ s ≤ 59 then some ((h * 3600 + m * 60 + s) * 1000)
      else none
    else none
  | _ => none

/-- Partial model of `datetime.fromisoformat` (applied by the source after
`replace("Z", "+00:00")`): covers the common `YYYY-MM-DD` and
`YYYY-MM-DD
HH:MM:SS` / `YYYY-MM-DDTHH:MM:SS` forms and rejects everything else.  In
the source every failure of this call raises `ValueError`, which the
caller catches and turns into `None`, so the branch is total; the model
is total by construction. -/
def fromisoformatModel (s : String) : Option PyDateTime :=
  let cs := s.toList
  match isoDateStrict (cs.take 10) with
  | none => none
  | some d =>
    match cs.drop 10 with
    | [] => some { date := d, msOfDay := 0 }
    | sep :: t =>
      if sep = 'T' ∨ sep = ' ' then
        match isoTimeStrict (t.take 8) with
        | some msod => if (t.drop 8).isEmpty then some { date := d, msOfDay := msod } else none
        | none => none
      else none

/-- A Python value as it may arrive in a raw Xero payload field: `None`,
a `str`, a `date`, a `datetime`, or any other object (number, list, ...).
-/
inductive PyVal where
  | pynone
  | pystr (s : String)
  | pydate (d : CivilDate)
  | pydatetime (dt : PyDateTime)
  | pyother
deriving DecidableEq, Repr

/-- Shallow embedding of `parse_xero_date` (xero.py).  `off` is the UTC
offset, in seconds, of the machine's local timezone — a real dependency of
the source, which calls `datetime.fromtimestamp` without a timezone
argument.  An `Except.error` result models an exception escaping the
function (the `/Date(...)/` branch has no exception handler). -/
def parse_xero_date (off : Int) : PyVal → Except String (Option CivilDate)
  | PyVal.pynone => Except.ok none
  | PyVal.pydate d => Except.ok (some d)
  | PyVal.pydatetime dt => Except.ok (some dt.date)
  | PyVal.pystr s =>
    match matchDateToken s with
    | some ms =>
      match fromtimestampDate off ms with
      | Except.ok d => Except.ok (some d)
      | Except.error e => Except.error e
    | none => Except.ok (strptimeDate10 s)
  | PyVal.pyother => Except.ok none

/-- `s.replace("Z", "+00:00")` — every occurrence of the character `Z`
replaced by the six characters `+00:00`. -/
def replaceZ (s : String) : String :=
  String.mk (s.toList.foldr
    (fun c acc =>
      if c = 'Z' then '+' :: '0' :: '0' :: ':' :: '0' :: '0' :: acc else c :: acc)
    [])

/-- Shallow embedding of `parse_xero_datetime` (xero.py).  A bare `date`
value is neither a `datetime` nor a `str`, so it falls through to the
final `return None`.  As in `parse_xero_date`, the `/Date(...)/` branch
propagates any `fromtimestamp` exception. -/
def parse_xero_datetime (off : Int) : PyVal → Except String (Option PyDateTime)
  | PyVal.pynone => Except.ok none
  | PyVal.pydatetime dt => Except.ok (some dt)
  | PyVal.pydate _ => Except.ok none
  | PyVal.pystr s =>
    match matchDateToken s with
    | some ms =>
      match fromtimestampDT off ms with
      | Except.ok dt => Except.ok (some dt)
      | Except.error e => Except.error e
    | none => Except.ok (fromisoformatModel (replaceZ s))
  | PyVal.pyother => Except.ok none

/-! ## Sync statistics and batch size (pms_sync_service.py) -/

/-- Module-level constant `BATCH_SIZE = 50`. -/
def BATCH_SIZE : Nat := 50

/-- The `stats` counter dict threaded through every sync function. -/
structure Stats where
  records_processed : Nat
  records_created : Nat
  records_updated : Nat
  records_skipped : Nat
  records_failed : Nat
deriving DecidableEq, Repr

/-- The all-zero `stats` dict that `sync_entity` initialises before the
entity function runs. -/
def Stats.zero : Stats :=
  { records_processed := 0, records_created := 0, records_updated := 0,
    records_skipped := 0, records_failed := 0 }

/-! ## Canonical patient records and the patients upsert engine -/

/-- The `record` dict built for one `vw_DimPatients` row in
`_sync_patients`: the keys that are always present.  The optional debtor4
enrichment keys (`first_name`, `gender`, phone and address columns, ...)
are elided — no claim mentions them individually.  UUIDs are modelled as
`Nat`, timestamps as `Nat`, and the JSON `raw_data` payload as an opaque
`String`. -/
structure PatientRecord where
  connection_id : Nat
  external_patient_id : String
  last_name : Option String
  patient_type : Option String
  preferred_provider_id : Option String
  source_system : Option String
  raw_data : String
  last_synced_at : Nat
deriving DecidableEq, Repr

/-- A stored row of `soe.patients` (`SOEPatient` in pms_models.py),
restricted to the columns the sync pipeline writes; the table carries
`UniqueConstraint("connection_id", "external_patient_id")`.  The
surrogate `id` column (a fresh UUID, never referenced by any claim) is
elided. -/
structure SOEPatientRow where
  connection_id : Nat
  external_patient_id : String
  last_name : Option String
  patient_type : Option String
  preferred_provider_id : Option String
  source_system : Option String
  raw_data : String
  first_synced_at : Nat
  last_synced_at : Nat
deriving DecidableEq, Repr

/-- Natural key of a stored patient row. -/
def rowKeyP (row : SOEPatientRow) : Nat × String :=
  (row.connection_id, row.external_patient_id)

/-- Natural key of a canonical patient record. -/
def recKeyP (r : PatientRecord) : Nat × String :=
  (r.connection_id, r.external_patient_id)

/-- The keys currently stored in the patients table. -/
def keysP (db : List SOEPatientRow) : List (Nat × String) :=
  db.map rowKeyP

/-- The row inserted by `insert(SOEPatient).values(id=uuid4(),
first_synced_at=record["last_synced_at"], **record)` when no conflict
occurs: every record column plus `first_synced_at` taken from the
record's `last_synced_at`. -/
def insertPatientRow (r : PatientRecord) : SOEPatientRow :=
  { connection_id := r.connection_id, external_patient_id := r.external_patient_id,
    last_name := r.last_name, patient_type := r.patient_type,
    preferred_provider_id := r.preferred_provider_id, source_system := r.source_system,
    raw_data := r.raw_data, first_synced_at := r.last_synced_at,
    last_synced_at := r.last_synced_at }

/-- The `ON CONFLICT ... DO UPDATE` assignment: `set_` is every key of the
record dict except the two index columns, so `first_synced_at` (not a
record key) is left untouched on the stored row. -/
def applyConflictUpdateP (old : SOEPatientRow) (r : PatientRecord) : SOEPatientRow :=
  { old with
    last_name := r.last_name, patient_type := r.patient_type,
    preferred_provider_id := r.preferred_provider_id, source_system := r.source_system,
    raw_data := r.raw_data, last_synced_at := r.last_synced_at }

/-- Effect on the patients table of one
`INSERT ... ON CONFLICT (connection_id, external_patient_id) DO UPDATE`
statement: update the conflicting row in place if the key exists,
otherwise append a fresh row. -/
def upsertPatientRow (db : List SOEPatientRow) (r : PatientRecord) : List SOEPatientRow :=
  if recKeyP r ∈ keysP db then
    db.map (fun row => if rowKeyP row = recKeyP r then applyConflictUpdateP row r else row)
  else db ++ [insertPatientRow r]

/-- `_upsert_patients`: one upsert statement per record, then a single
commit; returns `(0, updated)` where `updated` was incremented once per
record — the "simplified counting" of the source, which never reports a
created count.  This is the semantics when every `db.execute` succeeds. -/
def upsert_patients (db : List SOEPatientRow) (records : List PatientRecord) :
    List SOEPatientRow × Nat × Nat :=
  (records.foldl upsertPatientRow db, 0, records.length)

/-- Loop of `_upsert_patients` with a fallible `db.execute`:
`execOk r = false` models the database raising (a uniqueness or type
constraint violation) on that record's statement.  `pending` is the
uncommitted transaction state. -/
def upsertPatientsGo (execOk : PatientRecord → Bool) (pending : List SOEPatientRow)
    (updated : Nat) : List PatientRecord → Except String (List SOEPatientRow × Nat × Nat)
  | [] => Except.ok (pending, 0, updated)
  | r :: rest =>
    if execOk r then upsertPatientsGo execOk (upsertPatientRow pending r) (updated + 1) rest
    else Except.error "constraint violation"

/-- `_upsert_patients` under a fallible `db.execute`.  The loop body has
no exception handler, so the first failing statement propagates out of
the function; `await db.commit()` is only reached after the whole loop,
so on failure nothing of the batch is committed and the caller's
database state is unchanged (the aborted transaction is rolled back). -/
def upsert_patients_fallible (execOk : PatientRecord → Bool) (db : List SOEPatientRow)
    (records : List PatientRecord) : Except String (List SOEPatientRow × Nat × Nat) :=
  upsertPatientsGo execOk db 0 records

/-! ## The patients sync loop (`_sync_patients`) -/

/-- Abstraction of one `vw_DimPatients` parquet row by the projections
`_sync_patients` applies to it: `is_delta_metadata_row`,
`safe_str(row.get("PatientKey"))` (`none` covers every falsy value —
missing, NaN or the empty string), and the fields copied into the
canonical record.  The debtor4 enrichment lookup is elided, as above. -/
structure PatSourceRow where
  isMeta : Bool
  patientKey : Option String
  patient_Name : Option String
  patient_Code : Option String
  dentistId : Option String
  integrationName : Option String
  rawJson : String
deriving DecidableEq, Repr

/-- The base `record` dict built from one `vw_DimPatients` row. -/
def buildPatientRecord (connId now : Nat) (ext : String) (row : PatSourceRow) : PatientRecord :=
  { connection_id := connId, external_patient_id := ext,
    last_name := row.patient_Name, patient_type := row.patient_Code,
    preferred_provider_id := row.dentistId, source_system := row.integrationName,
    raw_data := row.rawJson, last_synced_at := now }

/-- The `for` loop of `_sync_patients`: skip Delta-metadata rows and rows
with a falsy `PatientKey`, build the canonical record, accumulate a batch
and upsert whenever the batch reaches `BATCH_SIZE`; after the loop the
remaining partial batch is flushed if non-empty. -/
def syncPatientsGo (connId now : Nat) (db : List SOEPatientRow) (stats : Stats)
    (batch : List PatientRecord) : List PatSourceRow → List SOEPatientRow × Stats
  | [] =>
    if batch.isEmpty then (db, stats)
    else
      let out := upsert_patients db batch
      (out.1, { stats with
                records_created := stats.records_created + out.2.1,
                records_updated := stats.records_updated + out.2.2 })
  | row :: rest =>
    if row.isMeta then
      syncPatientsGo connId now db
        { stats with records_skipped := stats.records_skipped + 1 } batch rest
    else
      match row.patientKey with
      | none =>
        syncPatientsGo connId now db
          { stats with records_skipped := stats.records_skipped + 1 } batch rest
      | some ext =>
        let stats1 := { stats with records_processed := stats.records_processed + 1 }
        let batch1 := batch ++ [buildPatientRecord connId now ext row]
        if BATCH_SIZE ≤ batch1.length then
          let out := upsert_patients db batch1
          syncPatientsGo connId now out.1
            { stats1 with
              records_created := stats1.records_created + out.2.1,
              records_updated := stats1.records_updated + out.2.2 } [] rest
        else syncPatientsGo connId now db stats1 batch1 rest

/-- `_sync_patients` for a connection `connId` at wall-clock time `now`,
applied to the rows streamed from blob storage, starting from database
state `db`: returns the final table state and the `stats` dict. -/
def sync_patients (connId now : Nat) (db : List SOEPatientRow)
    (rows : List PatSourceRow) : List SOEPatientRow × Stats :=
  syncPatientsGo connId now db Stats.zero [] rows

/-- The list of canonical records the loop builds, in order: one per
non-metadata row with a truthy `PatientKey`. -/
def patientRecordsOf (connId now : Nat) (rows : List PatSourceRow) : List PatientRecord :=
  rows.filterMap (fun row =>
    if row.isMeta then none
    else row.patientKey.map (fun ext => buildPatientRecord connId now ext row))

/-! ## Canonical appointment records and the appointments sync loop -/

/-- Abstraction of one `vw_Appointments` parquet row by the projections
`_sync_appointments` applies: `is_delta_metadata_row`,
`safe_str(row.get("RecordNum"))` (`none` covers every falsy value) and
`clean_value(row.get("AppointmentDate"))` (`none` when missing or NaN; a
present parquet timestamp, modelled as a `Nat`, is always truthy).  The
remaining columns (times, fees, status inputs) are folded into the
payload fields not referenced by any claim. -/
structure ApptSourceRow where
  isMeta : Bool
  recordNum : Option String
  appointmentDate : Option Nat
  patientId : Option String
  clinicianCode : Option String
  rawJson : String
deriving DecidableEq, Repr

/-- The `record` dict built for one appointment row, restricted to the
always-present keys a claim can mention. -/
structure ApptRecord where
  connection_id : Nat
  external_appointment_id : String
  patient_id : Option String
  provider_id : Option String
  appointment_date : Nat
  raw_data : String
  last_synced_at : Nat
deriving DecidableEq, Repr

/-- A stored row of `soe.appointments` (`SOEAppointment`), restricted to
the synced columns; unique on `(connection_id, external_appointment_id)`.
-/
structure SOEAppointmentRow where
  connection_id : Nat
  external_appointment_id : String
  patient_id : Option String
  provider_id : Option String
  appointment_date : Nat
  raw_data : String
  first_synced_at : Nat
  last_synced_at : Nat
deriving DecidableEq, Repr

/-- Natural key of a stored appointment row. -/
def rowKeyA (row : SOEAppointmentRow) : Nat × String :=
  (row.connection_id, row.external_appointment_id)

/-- Natural key of a canonical appointment record. -/
def recKeyA (r : ApptRecord) : Nat × String :=
  (r.connection_id, r.external_appointment_id)

/-- The keys currently stored in the appointments table. -/
def keysA (db : List SOEAppointmentRow) : List (Nat × String) :=
  db.map rowKeyA

/-- Row inserted on first sight of an appointment key:
`first_synced_at` is seeded from the record's `last_synced_at`. -/
def insertApptRow (r : ApptRecord) : SOEAppointmentRow :=
  { connection_id := r.connection_id,
    external_appointment_id := r.external_appointment_id,
    patient_id := r.patient_id, provider_id := r.provider_id,
    appointment_date := r.appointment_date, raw_data := r.raw_data,
    first_synced_at := r.last_synced_at, last_synced_at := r.last_synced_at }

/-- `ON CONFLICT DO UPDATE` for appointments: every record key except the
two index columns is overwritten; `first_synced_at` is not a record key
and is preserved. -/
def applyConflictUpdateA (old : SOEAppointmentRow) (r : ApptRecord) : SOEAppointmentRow :=
  { old with
    patient_id := r.patient_id, provider_id := r.provider_id,
    appointment_date := r.appointment_date, raw_data := r.raw_data,
    last_synced_at := r.last_synced_at }

/-- Effect of one appointment upsert statement. -/
def upsertApptRow (db : List SOEAppointmentRow) (r : ApptRecord) : List SOEAppointmentRow :=
  if recKeyA r ∈ keysA db then
    db.map (fun row => if rowKeyA row = recKeyA r then applyConflictUpdateA row r else row)
  else db ++ [insertApptRow r]

/-- `_upsert_appointments`: one upsert statement per record, then one
commit; it returns nothing and counts nothing. -/
def upsert_appointments (db : List SOEAppointmentRow) (records : List ApptRecord) :
    List SOEAppointmentRow :=
  records.foldl upsertApptRow db

/-- The canonical record built from one appointment row. -/
def buildApptRecord (connId now : Nat) (ext : String) (d : Nat) (row : ApptSourceRow) :
    ApptRecord :=
  { connection_id := connId, external_appointment_id := ext,
    patient_id := row.patientId, provider_id := row.clinicianCode,
    appointment_date := d, raw_data := row.rawJson, last_synced_at := now }

/-- The `for` loop of `_sync_appointments` with its batching: `commits`
records the size of each committed batch, in order (one
`_upsert_appointments` call — hence one transaction commit — per entry).
After the loop the remaining partial batch is flushed if non-empty. -/
def syncApptsGo (connId now : Nat) (db : List SOEAppointmentRow) (stats : Stats)
    (batch : List ApptRecord) (commits : List Nat) :
    List ApptSourceRow → List SOEAppointmentRow × Stats × List Nat
  | [] =>
    if batch.isEmpty then (db, stats, commits)
    else (upsert_appointments db batch,
          { stats with records_updated := stats.records_updated + batch.length },
          commits ++ [batch.length])
  | row :: rest =>
    if row.isMeta then
      syncApptsGo connId now db
        { stats with records_skipped := stats.records_skipped + 1 } batch commits rest
    else
      match row.recordNum, row.appointmentDate with
      | some ext, some d =>
        let stats1 := { stats with records_processed := stats.records_processed + 1 }
        let batch1 := batch ++ [buildApptRecord connId now ext d row]
        if BATCH_SIZE ≤ batch1.length then
          syncApptsGo connId now (upsert_appointments db batch1)
            { stats1 with records_updated := stats1.records_updated + batch1.length }
            [] (commits ++ [batch1.length]) rest
        else syncApptsGo connId now db stats1 batch1 commits rest
      | _, _ =>
        syncApptsGo connId now db
          { stats with records_skipped := stats.records_skipped + 1 } batch commits rest

/-- `_sync_appointments` over the streamed rows: final table state, the
`stats` dict, and the trace of committed batch sizes. -/
def sync_appointments (connId now : Nat) (db : List SOEAppointmentRow)
    (rows : List ApptSourceRow) : List SOEAppointmentRow × Stats × List Nat :=
  syncApptsGo connId now db Stats.zero [] [] rows

/-! ## The orchestrator: `sync_entity` and `sync_all` -/

/-- One write to a sync-history row: the initial `db.add` + commit that
creates it, or a later status update committed by the same call. -/
inductive HistWrite where
  | create (status : String)
  | setStatus (status : String)
deriving DecidableEq, Repr

/-- Final state of the `SyncHistory` row written by one `sync_entity`
call.  A `none` counter means the nullable column was never assigned and
stays NULL: the failure branch of `sync_entity` copies only
`records_processed` into the row. -/
structure SyncHistoryRec where
  status : String
  records_processed : Option Nat
  records_created : Option Nat
  records_updated : Option Nat
  records_skipped : Option Nat
  records_failed : Option Nat
  error_message : Option String
deriving DecidableEq, Repr

/-- The keys of the `entity_map` dict in `sync_entity`. -/
def knownEntityTypes : List String := ["patients", "appointments", "providers"]

/-- Everything one `sync_entity` call produces: the final history row,
the ordered trace of writes to that row, the returned result (`.error e`
models the call raising `e` to its caller), and the `last_sync_status` /
`last_sync_error` written onto the connection. -/
structure SyncEntityOut where
  hist : SyncHistoryRec
  trace : List HistWrite
  result : Except String Stats
  connStatus : String
  connError : Option String

/-- Shallow embedding of `sync_entity`, parameterised by the outcome of
the entity sync function: `runFn ty = Except.ok stats` models
`await sync_fn(db, connection)` returning `stats`, and `.error e` models
it raising.  An unknown entity type raises `ValueError` before any entity
function runs, landing in the same `except` branch.  The history row is
created in RUNNING state and committed, then updated exactly once — to
COMPLETED with the full counters, or to FAILED with the error message and
only `records_processed` copied from the still-zero initial `stats`
dict. -/
def sync_entity (runFn : String → Except String Stats) (entity_type : String) :
    SyncEntityOut :=
  let runOut : Except String Stats :=
    if entity_type ∈ knownEntityTypes then runFn entity_type
    else Except.error ("Unknown entity type: " ++ entity_type)
  match runOut with
  | Except.ok stats =>
    { hist := { status := "COMPLETED",
                records_processed := some stats.records_processed,
                records_created := some stats.records_created,
                records_updated := some stats.records_updated,
                records_skipped := some stats.records_skipped,
                records_failed := some stats.records_failed,
                error_message := none },
      trace := [HistWrite.create "RUNNING", HistWrite.setStatus "COMPLETED"],
      result := Except.ok stats,
      connStatus := "COMPLETED", connError := none }
  | Except.error e =>
    { hist := { status := "FAILED",
                records_processed := some Stats.zero.records_processed,
                records_created := none, records_updated := none,
                records_skipped := none, records_failed := none,
                error_message := some e },
      trace := [HistWrite.create "RUNNING", HistWrite.setStatus "FAILED"],
      result := Except.error e,
      connStatus := "FAILED", connError := some e }

/-- One entry of the dict `sync_all` returns: the success dict
(`{"status": "success", **stats, ...}`) or the
`{"status": "failed", "error": str(e)}` dict built in its `except`
branch. -/
inductive EntityOutcome where
  | success (stats : Stats)
  | failed (error : String)
deriving DecidableEq, Repr

/-- The five per-entity enable flags of a `PMSConnection` row; all are
nullable booleans. -/
structure PMSConnectionFlags where
  sync_patients : Option Bool
  sync_appointments : Option Bool
  sync_providers : Option Bool
  sync_treatments : Option Bool
  sync_billing : Option Bool
deriving DecidableEq, Repr

/-- Python truthiness of a nullable boolean column (`if enabled:`). -/
def truthy : Option Bool → Bool
  | some b => b
  | none => false

/-- The `try`/`except` around one `sync_entity` call inside `sync_all`. -/
def outcomeOf (runFn : String → Except String Stats) (ty : String) : EntityOutcome :=
  match (sync_entity runFn ty).result with
  | Except.ok stats => EntityOutcome.success stats
  | Except.error e => EntityOutcome.failed e

/-- Shallow embedding of `sync_all`: iterate the `entity_flags` dict —
exactly the three types patients, appointments, providers, in insertion
order — and run each enabled type, isolating its failure.  The Python
result dict is modelled as an association list in insertion order. -/
def sync_all (runFn : String → Except String Stats) (c : PMSConnectionFlags) :
    List (String × EntityOutcome) :=
  let entity_flags := [("patients", c.sync_patients),
                       ("appointments", c.sync_appointments),
                       ("providers", c.sync_providers)]
  entity_flags.foldl
    (fun results p =>
      if truthy p.2 then results ++ [(p.1, outcomeOf runFn p.1)] else results) []

/-- The keys of the result dict. -/
def resultKeys (rs : List (String × EntityOutcome)) : List String :=
  rs.map Prod.fst

/-- The entity types `sync_all` will run for a connection, in iteration
order. -/
def enabledList (c : PMSConnectionFlags) : List String :=
  (if truthy c.sync_patients then ["patients"] else []) ++
  (if truthy c.sync_appointments then ["appointments"] else []) ++
  (if truthy c.sync_providers then ["providers"] else [])

/-! ## Lemmas about the patients upsert -/

theorem rowKeyP_applyConflictUpdateP (old : SOEPatientRow) (r : PatientRecord) :
    rowKeyP (applyConflictUpdateP old r) = rowKeyP old := rfl

theorem rowKeyP_insertPatientRow (r : PatientRecord) :
    rowKeyP (insertPatientRow r) = recKeyP r := rfl

theorem keysP_upsert_of_mem {db : List SOEPatientRow} {r : PatientRecord}
    (h : recKeyP r ∈ keysP db) : keysP (upsertPatientRow db r) = keysP db := by
  unfold upsertPatientRow
  rw [if_pos h]
  unfold keysP
  rw [List.map_map]
  refine List.map_congr_left ?_
  intro row _
  simp only [Function.comp_apply]
  by_cases hk : rowKeyP row = recKeyP r
  · rw [if_pos hk, rowKeyP_applyConflictUpdateP]
  · rw [if_neg hk]

theorem length_upsert_of_mem {db : List SOEPatientRow} {r : PatientRecord}
    (h : recKeyP r ∈ keysP db) : (upsertPatientRow db r).length = db.length := by
  unfold upsertPatientRow
  rw [if_pos h]
  exact List.length_map _ _

theorem keysP_upsert_of_not_mem {db : List SOEPatientRow} {r : PatientRecord}
    (h : recKeyP r ∉ keysP db) :
    keysP (upsertPatientRow db r) = keysP db ++ [recKeyP r] := by
  unfold upsertPatientRow
  rw [if_neg h]
  unfold keysP
  rw [List.map_append]
  rfl

theorem mem_keysP_upsert_self {db : List SOEPatientRow} {r : PatientRecord} :
    recKeyP r ∈ keysP (upsertPatientRow db r) := by
  by_cases h : recKeyP r ∈ keysP db
  · rw [keysP_upsert_of_mem h]; exact h
  · rw [keysP_upsert_of_not_mem h]
    exact List.mem_append_right _ (List.mem_singleton.mpr rfl)

theorem keysP_upsert_mono {db : List SOEPatientRow} {r : PatientRecord}
    {a : Nat × String} (h : a ∈ keysP db) : a ∈ keysP (upsertPatientRow db r) := by
  by_cases hm : recKeyP r ∈ keysP db
  · rw [keysP_upsert_of_mem hm]; exact h
  · rw [keysP_upsert_of_not_mem hm]; exact List.mem_append_left _ h

theorem keysP_foldl_mono {a : Nat × String} (records : List PatientRecord) :
    ∀ {db : List SOEPatientRow}, a ∈ keysP db →
      a ∈ keysP (records.foldl upsertPatientRow db) := by
  induction records with
  | nil => intro db h; exact h
  | cons r rest ih => intro db h; exact ih (keysP_upsert_mono h)

theorem keysP_foldl_mem_of_mem {records : List PatientRecord} {r : PatientRecord}
    (hr : r ∈ records) (db : List SOEPatientRow) :
    recKeyP r ∈ keysP (records.foldl upsertPatientRow db) := by
  induction records generalizing db with
  | nil => cases hr
  | cons a rest ih =>
    rcases List.mem_cons.mp hr with h | h
    · subst h
      exact keysP_foldl_mono rest mem_keysP_upsert_self
    · exact ih h _

theorem length_foldl_of_all_mem {records : List PatientRecord} :
    ∀ {db : List SOEPatientRow}, (∀ r ∈ records, recKeyP r ∈ keysP db) →
      (records.foldl upsertPatientRow db).length = db.length := by
  induction records with
  | nil => intro db _; rfl
  | cons a rest ih =>
    intro db h
    have ha : recKeyP a ∈ keysP db := h a (List.mem_cons_self a rest)
    have hkeys : keysP (upsertPatientRow db a) = keysP db := keysP_upsert_of_mem ha
    have hrest : ∀ r ∈ rest, recKeyP r ∈ keysP (upsertPatientRow db a) := by
      intro r hr
      rw [hkeys]
      exact h r (List.mem_cons_of_mem a hr)
    rw [List.foldl_cons, ih hrest, length_upsert_of_mem ha]

/-! ## Lemmas about the patients sync loop -/

theorem patientRecordsOf_cons (connId now : Nat) (row : PatSourceRow)
    (rest : List PatSourceRow) :
    patientRecordsOf connId now (row :: rest) =
      (if row.isMeta then []
       else
         match row.patientKey with
         | none => []
         | some ext => [buildPatientRecord connId now ext row]) ++
        patientRecordsOf connId now rest := by
  unfold patientRecordsOf
  rw [List.filterMap_cons]
  by_cases hm : row.isMeta
  · simp [hm]
  · cases hpk : row.patientKey <;> simp [hm, hpk]

/-- The database component of the patients loop equals the plain fold of
the upsert over the pending batch followed by the records of the
remaining rows: batching only changes where commits happen, not the final
table state. -/
theorem syncPatientsGo_db (connId now : Nat) (rows : List PatSourceRow) :
    ∀ (db : List SOEPatientRow) (stats : Stats) (batch : List PatientRecord),
      (syncPatientsGo connId now db stats batch rows).1 =
        (batch ++ patientRecordsOf connId now rows).foldl upsertPatientRow db := by
  induction rows with
  | nil =>
    intro db stats batch
    unfold syncPatientsGo patientRecordsOf
    simp only [List.filterMap_nil, List.append_nil]
    by_cases hb : batch.isEmpty
    · rw [if_pos hb, List.isEmpty_iff.mp hb]
      rfl
    · rw [if_neg hb]
      rfl
  | cons row rest ih =>
    intro db stats batch
    rw [patientRecordsOf_cons]
    unfold syncPatientsGo
    cases hm : row.isMeta with
    | true =>
      simp only [if_true, ih]
      simp
    | false =>
      simp only [Bool.false_eq_true, if_false]
      cases hpk : row.patientKey with
      | none =>
        dsimp only
        rw [ih]
        simp
      | some ext =>
        dsimp only
        by_cases hful : BATCH_SIZE ≤ (batch ++ [buildPatientRecord connId now ext row]).length
        · rw [if_pos hful, ih]
          simp only [List.nil_append, upsert_patients]
          rw [← List.foldl_append, List.append_assoc]
        · rw [if_neg hful, ih]
          simp [List.append_assoc]

/-- The loop never increments `records_created`: `_upsert_patients`
always reports a created count of `0`. -/
theorem syncPatientsGo_created (connId now : Nat) (rows : List PatSourceRow) :
    ∀ (db : List SOEPatientRow) (stats : Stats) (batch : List PatientRecord),
      (syncPatientsGo connId now db stats batch rows).2.records_created =
        stats.records_created := by
  induction rows with
  | nil =>
    intro db stats batch
    unfold syncPatientsGo
    by_cases hb : batch.isEmpty
    · rw [if_pos hb]
    · rw [if_neg hb]
      simp [upsert_patients]
  | cons row rest ih =>
    intro db stats batch
    unfold syncPatientsGo
    cases hm : row.isMeta with
    | true =>
      simp only [if_true]
      rw [ih]
    | false =>
      simp only [Bool.false_eq_true, if_false]
      cases hpk : row.patientKey with
      | none =>
        dsimp only
        rw [ih]
      | some ext =>
        dsimp only
        by_cases hful : BATCH_SIZE ≤ (batch ++ [buildPatientRecord connId now ext row]).length
        · rw [if_pos hful, ih]
          simp [upsert_patients]
        · rw [if_neg hful, ih]

/-- The keys of the canonical records do not depend on the run's
wall-clock timestamp: unchanged source data yields the same key stream on
every run. -/
theorem patientRecordKeys_indep (connId n1 n2 : Nat) (rows : List PatSourceRow) :
    (patientRecordsOf connId n1 rows).map recKeyP =
      (patientRecordsOf connId n2 rows).map recKeyP := by
  induction rows with
  | nil => rfl
  | cons row rest ih =>
    rw [patientRecordsOf_cons, patientRecordsOf_cons, List.map_append, List.map_append, ih]
    by_cases hm : row.isMeta
    · simp [hm]
    · cases hpk : row.patientKey <;> simp [hm, hpk, recKeyP, buildPatientRecord]

/-- A concrete source row used to instantiate hypothesised theorems. -/
def demoPatRow : PatSourceRow :=
  { isMeta := false, patientKey := some "P1", patient_Name := some "Smith",
    patient_Code := none, dentistId := none, integrationName := some "SOE",
    rawJson := "raw" }

/-- C1: Upsert idempotence.  Running the patients sync a second time over
unchanged source data (any wall-clock timestamps `now1`, `now2`) leaves
the total number of canonical rows unchanged; the second run's
`records_created` is `0`, and so is the `records_created` that
`sync_entity` stores on the history row for that run; and upserting any
record whose `(connection_id, external_patient_id)` key already exists
updates a row in place — the table's length and key list are unchanged,
so no duplicate is ever inserted. -/
theorem C1_upsert_idempotence (connId now1 now2 : Nat) (db : List SOEPatientRow)
    (rows : List PatSourceRow) :
    (sync_patients connId now2 (sync_patients connId now1 db rows).1 rows).1.length =
      (sync_patients connId now1 db rows).1.length ∧
    (sync_patients connId now2 (sync_patients connId now1 db rows).1 rows).2.records_created = 0 ∧
    (sync_entity
        (fun _ => Except.ok
          (sync_patients connId now2 (sync_patients connId now1 db rows).1 rows).2)
        "patients").hist.records_created = some 0 ∧
    (∀ r : PatientRecord, recKeyP r ∈ keysP (sync_patients connId now1 db rows).1 →
       (upsertPatientRow (sync_patients connId now1 db rows).1 r).length =
         (sync_patients connId now1 db rows).1.length ∧
       keysP (upsertPatientRow (sync_patients connId now1 db rows).1 r) =
         keysP (sync_patients connId now1 db rows).1) := by
  have hdb1 : (sync_patients connId now1 db rows).1 =
      (patientRecordsOf connId now1 rows).foldl upsertPatientRow db := by
    unfold sync_patients
    rw [syncPatientsGo_db]
    rfl
  have hdb2 : (sync_patients connId now2 (sync_patients connId now1 db rows).1 rows).1 =
      (patientRecordsOf connId now2 rows).foldl upsertPatientRow
        (sync_patients connId now1 db rows).1 := by
    unfold sync_patients
    rw [syncPatientsGo_db]
    rfl
  have hmem : ∀ r ∈ patientRecordsOf connId now2 rows,
      recKeyP r ∈ keysP (sync_patients connId now1 db rows).1 := by
    intro r hr
    have h1 : recKeyP r ∈ (patientRecordsOf connId now2 rows).map recKeyP :=
      List.mem_map_of_mem recKeyP hr
    rw [patientRecordKeys_indep connId now2 now1 rows] at h1
    rcases List.mem_map.mp h1 with ⟨r1, hr1, hkey⟩
    rw [← hkey, hdb1]
    exact keysP_foldl_mem_of_mem hr1 db
  have hcreated :
      (sync_patients connId now2 (sync_patients connId now1 db rows).1 rows).2.records_created
        = 0 := by
    unfold sync_patients
    rw [syncPatientsGo_created]
    rfl
  refine ⟨?_, hcreated, ?_, ?_⟩
  · rw [hdb2]
    exact length_foldl_of_all_mem hmem
  · simp [sync_entity, knownEntityTypes, hcreated]
  · intro r hr
    exact ⟨length_upsert_of_mem hr, keysP_upsert_of_mem hr⟩

/-- Closed witness for C1 at a concrete connection, database and source
row. -/
theorem C1_upsert_idempotence_witness :
    (upsertPatientRow (sync_patients 1 100 [] [demoPatRow]).1
        (buildPatientRecord 1 200 "P1" demoPatRow)).length =
      (sync_patients 1 100 [] [demoPatRow]).1.length ∧
    (sync_patients 1 200 (sync_patients 1 100 [] [demoPatRow]).1 [demoPatRow]).2.records_created
      = 0 :=
  ⟨((C1_upsert_idempotence 1 100 200 [] [demoPatRow]).2.2.2
      (buildPatientRecord 1 200 "P1" demoPatRow) (by decide)).1,
   (C1_upsert_idempotence 1 100 200 [] [demoPatRow]).2.1⟩

/-! ## Lookup lemmas for the conflict frame condition -/

/-- The first stored patient row with a given natural key. -/
def findRowP (db : List SOEPatientRow) (k : Nat × String) : Option SOEPatientRow :=
  db.find? (fun row => decide (rowKeyP row = k))

/-- The first stored appointment row with a given natural key. -/
def findRowA (db : List SOEAppointmentRow) (k : Nat × String) : Option SOEAppointmentRow :=
  db.find? (fun row => decide (rowKeyA row = k))

theorem find?_map_pred_comm {α : Type} (p : α → Bool) (f : α → α)
    (hf : ∀ x, p (f x) = p x) :
    ∀ l : List α, (l.map f).find? p = (l.find? p).map f := by
  intro l
  induction l with
  | nil => rfl
  | cons a rest ih =>
    rw [List.map_cons]
    cases hpa : p a with
    | true =>
      rw [List.find?_cons_of_pos _ (by rw [hf]; exact hpa),
          List.find?_cons_of_pos _ hpa]
      rfl
    | false =>
      rw [List.find?_cons_of_neg _ (by simp [hf, hpa]),
          List.find?_cons_of_neg _ (by simp [hpa])]
      exact ih

theorem findRowP_upsert_of_mem {db : List SOEPatientRow} {r : PatientRecord}
    {old : SOEPatientRow} (h : findRowP db (recKeyP r) = some old) :
    findRowP (upsertPatientRow db r) (recKeyP r) = some (applyConflictUpdateP old r) := by
  have h2 : List.find? (fun row => decide (rowKeyP row = recKeyP r)) db = some old := h
  have hpold : rowKeyP old = recKeyP r := by
    have h3 := List.find?_some h2
    simpa using h3
  have hmem : recKeyP r ∈ keysP db :=
    hpold ▸ List.mem_map_of_mem rowKeyP (List.mem_of_find?_eq_some h2)
  unfold upsertPatientRow
  rw [if_pos hmem]
  unfold findRowP at h ⊢
  rw [find?_map_pred_comm _ _ ?hf, h]
  · dsimp only [Option.map]
    rw [if_pos hpold]
  case hf =>
    intro row
    by_cases hk : rowKeyP row = recKeyP r
    · rw [if_pos hk]
      simp [rowKeyP_applyConflictUpdateP, hk]
    · rw [if_neg hk]

theorem findRowP_upsert_of_none {db : List SOEPatientRow} {r : PatientRecord}
    (h : findRowP db (recKeyP r) = none) :
    findRowP (upsertPatientRow db r) (recKeyP r) = some (insertPatientRow r) := by
  have hmem : recKeyP r ∉ keysP db := by
    intro hk
    rcases List.mem_map.mp hk with ⟨row, hrow, hkey⟩
    exact (List.find?_eq_none.mp h row hrow) (by simp [hkey])
  unfold upsertPatientRow
  rw [if_neg hmem]
  unfold findRowP at h ⊢
  rw [List.find?_append, h]
  rw [List.find?_cons_of_pos _ (by simp [rowKeyP_insertPatientRow])]
  rfl

theorem rowKeyA_applyConflictUpdateA (old : SOEAppointmentRow) (r : ApptRecord) :
    rowKeyA (applyConflictUpdateA old r) = rowKeyA old := rfl

theorem rowKeyA_insertApptRow (r : ApptRecord) :
    rowKeyA (insertApptRow r) = recKeyA r := rfl

theorem findRowA_upsert_of_mem {db : List SOEAppointmentRow} {r : ApptRecord}
    {old : SOEAppointmentRow} (h : findRowA db (recKeyA r) = some old) :
    findRowA (upsertApptRow db r) (recKeyA r) = some (applyConflictUpdateA old r) := by
  have h2 : List.find? (fun row => decide (rowKeyA row = recKeyA r)) db = some old := h
  have hpold : rowKeyA old = recKeyA r := by
    have h3 := List.find?_some h2
    simpa using h3
  have hmem : recKeyA r ∈ keysA db :=
    hpold ▸ List.mem_map_of_mem rowKeyA (List.mem_of_find?_eq_some h2)
  unfold upsertApptRow
  rw [if_pos hmem]
  unfold findRowA at h ⊢
  rw [find?_map_pred_comm _ _ ?hf, h]
  · dsimp only [Option.map]
    rw [if_pos hpold]
  case hf =>
    intro row
    by_cases hk : rowKeyA row = recKeyA r
    · rw [if_pos hk]
      simp [rowKeyA_applyConflictUpdateA, hk]
    · rw [if_neg hk]

theorem findRowA_upsert_of_none {db : List SOEAppointmentRow} {r : ApptRecord}
    (h : findRowA db (recKeyA r) = none) :
    findRowA (upsertApptRow db r) (recKeyA r) = some (insertApptRow r) := by
  have hmem : recKeyA r ∉ keysA db := by
    intro hk
    rcases List.mem_map.mp hk with ⟨row, hrow, hkey⟩
    exact (List.find?_eq_none.mp h row hrow) (by simp [hkey])
  unfold upsertApptRow
  rw [if_neg hmem]
  unfold findRowA at h ⊢
  rw [List.find?_append, h]
  rw [List.find?_cons_of_pos _ (by simp [rowKeyA_insertApptRow])]
  rfl

/-- C8: Frame condition of upsert on conflict.  When the natural key
already exists, the upsert rewrites the stored row's business fields, raw
payload and `last_synced_at` from the incoming record but leaves the
stored `first_synced_at` unchanged; `first_synced_at` is assigned (from
the record's `last_synced_at`) only on the initial insert of a key.
Stated for both the patients and the appointments upsert. -/
theorem C8_conflict_frame :
    (∀ (db : List SOEPatientRow) (r : PatientRecord) (old : SOEPatientRow),
       findRowP db (recKeyP r) = some old →
         findRowP (upsertPatientRow db r) (recKeyP r) = some (applyConflictUpdateP old r) ∧
         (applyConflictUpdateP old r).first_synced_at = old.first_synced_at ∧
         (applyConflictUpdateP old r).last_name = r.last_name ∧
         (applyConflictUpdateP old r).patient_type = r.patient_type ∧
         (applyConflictUpdateP old r).preferred_provider_id = r.preferred_provider_id ∧
         (applyConflictUpdateP old r).source_system = r.source_system ∧
         (applyConflictUpdateP old r).raw_data = r.raw_data ∧
         (applyConflictUpdateP old r).last_synced_at = r.last_synced_at) ∧
    (∀ (db : List SOEPatientRow) (r : PatientRecord),
       findRowP db (recKeyP r) = none →
         findRowP (upsertPatientRow db r) (recKeyP r) = some (insertPatientRow r) ∧
         (insertPatientRow r).first_synced_at = r.last_synced_at) ∧
    (∀ (db : List SOEAppointmentRow) (r : ApptRecord) (old : SOEAppointmentRow),
       findRowA db (recKeyA r) = some old →
         findRowA (upsertApptRow db r) (recKeyA r) = some (applyConflictUpdateA old r) ∧
         (applyConflictUpdateA old r).first_synced_at = old.first_synced_at ∧
         (applyConflictUpdateA old r).patient_id = r.patient_id ∧
         (applyConflictUpdateA old r).provider_id = r.provider_id ∧
         (applyConflictUpdateA old r).appointment_date = r.appointment_date ∧
         (applyConflictUpdateA old r).raw_data = r.raw_data ∧
         (applyConflictUpdateA old r).last_synced_at = r.last_synced_at) ∧
    (∀ (db : List SOEAppointmentRow) (r : ApptRecord),
       findRowA db (recKeyA r) = none →
         findRowA (upsertApptRow db r) (recKeyA r) = some (insertApptRow r) ∧
         (insertApptRow r).first_synced_at = r.last_synced_at) := by
  refine ⟨?_, ?_, ?_, ?_⟩
  · intro db r old h
    exact ⟨findRowP_upsert_of_mem h, rfl, rfl, rfl, rfl, rfl, rfl, rfl⟩
  · intro db r h
    exact ⟨findRowP_upsert_of_none h, rfl⟩
  · intro db r old h
    exact ⟨findRowA_upsert_of_mem h, rfl, rfl, rfl, rfl, rfl, rfl⟩
  · intro db r h
    exact ⟨findRowA_upsert_of_none h, rfl⟩

/-- A concrete appointment source row used to instantiate hypothesised
theorems. -/
def demoApptRow : ApptSourceRow :=
  { isMeta := false, recordNum := some "A1", appointmentDate := some 500,
    patientId := some "P1", clinicianCode := none, rawJson := "raw" }

/-- Closed witness for C8: re-upserting a stored patient row keeps its
`first_synced_at`; a fresh appointment insert seeds `first_synced_at`
from the record. -/
theorem C8_conflict_frame_witness :
    (findRowP
        (upsertPatientRow [insertPatientRow (buildPatientRecord 1 100 "P1" demoPatRow)]
          (buildPatientRecord 1 200 "P1" demoPatRow))
        (recKeyP (buildPatientRecord 1 200 "P1" demoPatRow)) =
      some (applyConflictUpdateP (insertPatientRow (buildPatientRecord 1 100 "P1" demoPatRow))
        (buildPatientRecord 1 200 "P1" demoPatRow))) ∧
    (applyConflictUpdateP (insertPatientRow (buildPatientRecord 1 100 "P1" demoPatRow))
        (buildPatientRecord 1 200 "P1" demoPatRow)).first_synced_at = 100 ∧
    findRowA (upsertApptRow [] (buildApptRecord 1 300 "A1" 500 demoApptRow))
        (recKeyA (buildApptRecord 1 300 "A1" 500 demoApptRow)) =
      some (insertApptRow (buildApptRecord 1 300 "A1" 500 demoApptRow)) :=
  ⟨(C8_conflict_frame.1 [insertPatientRow (buildPatientRecord 1 100 "P1" demoPatRow)]
      (buildPatientRecord 1 200 "P1" demoPatRow)
      (insertPatientRow (buildPatientRecord 1 100 "P1" demoPatRow)) (by decide)).1,
   (C8_conflict_frame.1 [insertPatientRow (buildPatientRecord 1 100 "P1" demoPatRow)]
      (buildPatientRecord 1 200 "P1" demoPatRow)
      (insertPatientRow (buildPatientRecord 1 100 "P1" demoPatRow)) (by decide)).2.1,
   (C8_conflict_frame.2.2.2 [] (buildApptRecord 1 300 "A1" 500 demoApptRow) (by decide)).1⟩

/-! ## Batching arithmetic for the appointments loop -/

/-- Sizes of the mid-loop batch flushes when `n` further valid records
arrive while `b` records are already pending. -/
def sizesAux : Nat → Nat → List Nat
  | _, 0 => []
  | b, Nat.succ n =>
    if BATCH_SIZE ≤ b + 1 then (b + 1) :: sizesAux 0 n else sizesAux (b + 1) n

/-- Number of records still pending after `n` further valid records
arrive while `b` records are already pending. -/
def pendAux : Nat → Nat → Nat
  | b, 0 => b
  | b, Nat.succ n =>
    if BATCH_SIZE ≤ b + 1 then pendAux 0 n else pendAux (b + 1) n

theorem sizesAux_succ (b n : Nat) :
    sizesAux b (n + 1) =
      if BATCH_SIZE ≤ b + 1 then (b + 1) :: sizesAux 0 n else sizesAux (b + 1) n := rfl

theorem pendAux_succ (b n : Nat) :
    pendAux b (n + 1) =
      if BATCH_SIZE ≤ b + 1 then pendAux 0 n else pendAux (b + 1) n := rfl

/-- A source row the appointments loop neither skips nor drops. -/
def validApptRow (row : ApptSourceRow) : Prop :=
  row.isMeta = false ∧ row.recordNum.isSome ∧ row.appointmentDate.isSome

/-- Characterisation of the appointments loop on all-valid input: the
commit trace is the mid-loop flushes followed by the final partial flush
(when non-empty), every record is counted in `records_updated` exactly
once, and `records_created` is never touched. -/
theorem syncApptsGo_valid (connId now : Nat) :
    ∀ rows : List ApptSourceRow, (∀ row ∈ rows, validApptRow row) →
    ∀ (db : List SOEAppointmentRow) (stats : Stats) (batch : List ApptRecord)
      (commits : List Nat),
      (syncApptsGo connId now db stats batch commits rows).2.2 =
        commits ++ sizesAux batch.length rows.length ++
          (if pendAux batch.length rows.length = 0 then []
           else [pendAux batch.length rows.length]) ∧
      (syncApptsGo connId now db stats batch commits rows).2.1.records_updated =
        stats.records_updated + batch.length + rows.length ∧
      (syncApptsGo connId now db stats batch commits rows).2.1.records_created =
        stats.records_created := by
  intro rows
  induction rows with
  | nil =>
    intro hv db stats batch commits
    unfold syncApptsGo
    by_cases hb : batch.isEmpty
    · rw [List.isEmpty_iff.mp hb]
      simp [sizesAux, pendAux]
    · rw [if_neg hb]
      have hb0 : batch.length ≠ 0 := by
        intro hc
        exact hb (by rw [List.length_eq_zero.mp hc]; rfl)
      simp [sizesAux, pendAux, hb0]
  | cons row rest ih =>
    intro hv db stats batch commits
    obtain ⟨hm, hrn, had⟩ := hv row (List.mem_cons_self row rest)
    have hv2 : ∀ r ∈ rest, validApptRow r := fun r hr => hv r (List.mem_cons_of_mem row hr)
    rcases Option.isSome_iff_exists.mp hrn with ⟨ext, hext⟩
    rcases Option.isSome_iff_exists.mp had with ⟨d, hdate⟩
    unfold syncApptsGo
    rw [hm, hext, hdate]
    simp only [Bool.false_eq_true, if_false, List.length_cons]
    by_cases hful : BATCH_SIZE ≤ (batch ++ [buildApptRecord connId now ext d row]).length
    · rw [if_pos hful]
      obtain ⟨ihc, ihu, ihcr⟩ := ih hv2 (upsert_appointments db
        (batch ++ [buildApptRecord connId now ext d row]))
        { records_processed := stats.records_processed + 1,
          records_created := stats.records_created,
          records_updated := stats.records_updated +
            (batch ++ [buildApptRecord connId now ext d row]).length,
          records_skipped := stats.records_skipped,
          records_failed := stats.records_failed }
        [] (commits ++ [(batch ++ [buildApptRecord connId now ext d row]).length])
      rw [ihc, ihu, ihcr]
      have hflen : (batch ++ [buildApptRecord connId now ext d row]).length =
          batch.length + 1 := by simp
      rw [hflen] at hful ⊢
      rw [sizesAux_succ, pendAux_succ, if_pos hful, if_pos hful]
      refine ⟨?_, ?_, rfl⟩
      · simp [List.append_assoc]
      · dsimp
        omega
    · rw [if_neg hful]
      obtain ⟨ihc, ihu, ihcr⟩ := ih hv2 db
        { records_processed := stats.records_processed + 1,
          records_created := stats.records_created,
          records_updated := stats.records_updated,
          records_skipped := stats.records_skipped,
          records_failed := stats.records_failed }
        (batch ++ [buildApptRecord connId now ext d row]) commits
      rw [ihc, ihu, ihcr]
      have hflen : (batch ++ [buildApptRecord connId now ext d row]).length =
          batch.length + 1 := by simp
      rw [hflen] at hful ⊢
      rw [sizesAux_succ, pendAux_succ, if_neg hful, if_neg hful]
      refine ⟨rfl, ?_, rfl⟩
      dsimp
      omega

/-- C7: Batching behaviour.  For any 120 source records the appointments
loop neither skips nor drops, with `BATCH_SIZE = 50` and no failures, the
sync performs exactly three batch commits, of 50, 50 and 20 records (the
final partial batch flushed unconditionally at stream end), and the run's
`records_created + records_updated` equals 120. -/
theorem C7_batching (connId now : Nat) (db : List SOEAppointmentRow)
    (rows : List ApptSourceRow) (hlen : rows.length = 120)
    (hv : ∀ row ∈ rows, validApptRow row) :
    (sync_appointments connId now db rows).2.2 = [50, 50, 20] ∧
    (sync_appointments connId now db rows).2.1.records_created +
      (sync_appointments connId now db rows).2.1.records_updated = 120 := by
  obtain ⟨hc, hu, hcr⟩ := syncApptsGo_valid connId now rows hv db Stats.zero [] []
  unfold sync_appointments
  constructor
  · rw [hc, hlen]
    decide
  · rw [hcr, hu, hlen]
    decide

/-- Closed witness for C7 over 120 concrete valid rows. -/
theorem C7_batching_witness :
    (sync_appointments 1 7 [] (List.replicate 120 demoApptRow)).2.2 = [50, 50, 20] ∧
    (sync_appointments 1 7 [] (List.replicate 120 demoApptRow)).2.1.records_created +
      (sync_appointments 1 7 [] (List.replicate 120 demoApptRow)).2.1.records_updated = 120 :=
  C7_batching 1 7 [] (List.replicate 120 demoApptRow) (by simp)
    (fun row hrow => by
      rw [(List.mem_replicate.mp hrow).2]
      exact ⟨rfl, rfl, rfl⟩)

/-! ## Failure behaviour of the batch upsert (C2) -/

/-- A concrete valid record for the failure scenarios. -/
def demoGoodRecord : PatientRecord :=
  { connection_id := 1, external_patient_id := "GOOD", last_name := some "A",
    patient_type := none, preferred_provider_id := none, source_system := none,
    raw_data := "raw", last_synced_at := 0 }

/-- A concrete record whose write violates a constraint. -/
def demoBadRecord : PatientRecord :=
  { connection_id := 1, external_patient_id := "BAD", last_name := some "B",
    patient_type := none, preferred_provider_id := none, source_system := none,
    raw_data := "raw", last_synced_at := 0 }

/-- A `db.execute` oracle under which exactly `demoBadRecord` violates a
constraint. -/
def demoExecOk : PatientRecord → Bool :=
  fun r => ! (r.external_patient_id == "BAD")

theorem upsertPatientsGo_error (execOk : PatientRecord → Bool) (r : PatientRecord)
    (hfail : execOk r = false) :
    ∀ records : List PatientRecord, r ∈ records →
      ∀ (pending : List SOEPatientRow) (updated : Nat),
        upsertPatientsGo execOk pending updated records =
          Except.error "constraint violation" := by
  intro records
  induction records with
  | nil => intro h; cases h
  | cons a rest ih =>
    intro hmem pending updated
    unfold upsertPatientsGo
    cases ha : execOk a with
    | false => rw [if_neg Bool.false_ne_true]
    | true =>
      rw [if_pos rfl]
      rcases List.mem_cons.mp hmem with h | h
      · subst h
        rw [hfail] at ha
        cases ha
      · exact ih h _ _

/-- C2 counterexample: the claim fails on the code.  With an empty table
and the batch `[demoGoodRecord, demoBadRecord]` in which exactly the one
record `demoBadRecord` violates a constraint, `_upsert_patients` raises
(so the batch is aborted and the valid `demoGoodRecord` is not
persisted — there is no committed result), the sync run ends in failure,
and the history row's `records_failed` stays NULL rather than equalling
`1`, the number of invalid records. -/
theorem C2_counterexample :
    upsert_patients_fallible demoExecOk [] [demoGoodRecord, demoBadRecord] =
      Except.error "constraint violation" ∧
    (sync_entity (fun _ => Except.error "constraint violation") "patients").hist.records_failed
      = none ∧
    (sync_entity (fun _ => Except.error "constraint violation") "patients").hist.records_failed
      ≠ some 1 ∧
    (sync_entity (fun _ => Except.error "constraint violation") "patients").result =
      Except.error "constraint violation" :=
  ⟨rfl, rfl, by decide, rfl⟩

/-- C2 amended: there is no per-record error handling in
`_upsert_patients`.  Whenever any record of a batch fails to execute, the
whole batch upsert raises (uncommitted rows of that batch, valid ones
included, are rolled back); `sync_entity` then marks the run FAILED,
re-raises the error, and never assigns `records_failed`, which stays NULL
instead of counting the invalid records. -/
theorem C2_failure_aborts_batch (execOk : PatientRecord → Bool)
    (db : List SOEPatientRow) (records : List PatientRecord) (r : PatientRecord)
    (hr : r ∈ records) (hfail : execOk r = false) :
    upsert_patients_fallible execOk db records = Except.error "constraint violation" ∧
    (∀ e : String,
       (sync_entity (fun _ => Except.error e) "patients").hist.status = "FAILED" ∧
       (sync_entity (fun _ => Except.error e) "patients").hist.records_failed = none ∧
       (sync_entity (fun _ => Except.error e) "patients").result = Except.error e) := by
  constructor
  · exact upsertPatientsGo_error execOk r hfail records hr db 0
  · intro e
    exact ⟨rfl, rfl, rfl⟩

/-- Closed witness for the amended C2 at the concrete two-record batch. -/
theorem C2_failure_aborts_batch_witness :
    upsert_patients_fallible demoExecOk [] [demoGoodRecord, demoBadRecord] =
      Except.error "constraint violation" ∧
    (sync_entity (fun _ => Except.error "boom") "patients").hist.records_failed = none :=
  ⟨(C2_failure_aborts_batch demoExecOk [] [demoGoodRecord, demoBadRecord] demoBadRecord
      (by decide) rfl).1,
   ((C2_failure_aborts_batch demoExecOk [] [demoGoodRecord, demoBadRecord] demoBadRecord
      (by decide) rfl).2 "boom").2.1⟩

/-! ## Orchestrator claims -/

/-- C4: Sync-history terminality.  Every `sync_entity` invocation writes
its history row exactly twice — the creating insert in RUNNING state and
a single status update — and the updated status is terminal (COMPLETED or
FAILED); no write follows the terminal one, for every entity type and
every outcome of the entity sync function. -/
theorem C4_history_terminality (runFn : String → Except String Stats)
    (entity_type : String) :
    ∃ t : String,
      (sync_entity runFn entity_type).trace =
        [HistWrite.create "RUNNING", HistWrite.setStatus t] ∧
      (t = "COMPLETED" ∨ t = "FAILED") ∧
      (sync_entity runFn entity_type).hist.status = t := by
  unfold sync_entity
  cases hout : (if entity_type ∈ knownEntityTypes then runFn entity_type
                else Except.error ("Unknown entity type: " ++ entity_type)) with
  | ok stats => exact ⟨"COMPLETED", rfl, Or.inl rfl, rfl⟩
  | error e => exact ⟨"FAILED", rfl, Or.inr rfl, rfl⟩

/-- Expansion of `sync_all` into its three flag-guarded segments. -/
theorem sync_all_eq (runFn : String → Except String Stats) (c : PMSConnectionFlags) :
    sync_all runFn c =
      (if truthy c.sync_patients then [("patients", outcomeOf runFn "patients")] else []) ++
      (if truthy c.sync_appointments then
        [("appointments", outcomeOf runFn "appointments")] else []) ++
      (if truthy c.sync_providers then [("providers", outcomeOf runFn "providers")] else []) := by
  unfold sync_all
  simp only [List.foldl_cons, List.foldl_nil]
  cases truthy c.sync_patients <;> cases truthy c.sync_appointments <;>
    cases truthy c.sync_providers <;> simp

/-- The keys of the `sync_all` result are exactly the enabled entity
types, in iteration order. -/
theorem resultKeys_eq_enabledList (runFn : String → Except String Stats)
    (c : PMSConnectionFlags) :
    resultKeys (sync_all runFn c) = enabledList c := by
  rw [sync_all_eq]
  unfold resultKeys enabledList
  cases truthy c.sync_patients <;> cases truthy c.sync_appointments <;>
    cases truthy c.sync_providers <;> rfl

/-- C5: Enable-flag gating of `sync_all`.  An entity type appears as a
key of the result dict exactly when its enable flag is truthy; in
particular, a connection with `sync_patients = false` and
`sync_appointments = true` yields a result containing an "appointments"
key and no "patients" key. -/
theorem C5_enable_flag_gating (runFn : String → Except String Stats)
    (c : PMSConnectionFlags) :
    (("patients" ∈ resultKeys (sync_all runFn c)) ↔ truthy c.sync_patients = true) ∧
    (("appointments" ∈ resultKeys (sync_all runFn c)) ↔ truthy c.sync_appointments = true) ∧
    (("providers" ∈ resultKeys (sync_all runFn c)) ↔ truthy c.sync_providers = true) ∧
    (c.sync_patients = some false → c.sync_appointments = some true →
       "appointments" ∈ resultKeys (sync_all runFn c) ∧
       "patients" ∉ resultKeys (sync_all runFn c)) := by
  have hiff : (("patients" ∈ resultKeys (sync_all runFn c)) ↔
        truthy c.sync_patients = true) ∧
      (("appointments" ∈ resultKeys (sync_all runFn c)) ↔
        truthy c.sync_appointments = true) ∧
      (("providers" ∈ resultKeys (sync_all runFn c)) ↔
        truthy c.sync_providers = true) := by
    rw [resultKeys_eq_enabledList]
    unfold enabledList
    cases truthy c.sync_patients <;> cases truthy c.sync_appointments <;>
      cases truthy c.sync_providers <;> exact ⟨by decide, by decide, by decide⟩
  refine ⟨hiff.1, hiff.2.1, hiff.2.2, ?_⟩
  intro h1 h2
  refine ⟨hiff.2.1.mpr (by rw [h2]; rfl), ?_⟩
  intro hmem
  have h := hiff.1.mp hmem
  rw [h1] at h
  exact Bool.false_ne_true h

/-- Concrete connection flags: patients off, appointments on. -/
def demoFlags : PMSConnectionFlags :=
  { sync_patients := some false, sync_appointments := some true,
    sync_providers := none, sync_treatments := some true, sync_billing := some false }

/-- Closed witness for C5 at `demoFlags`. -/
theorem C5_enable_flag_gating_witness :
    "appointments" ∈ resultKeys (sync_all (fun _ => Except.ok Stats.zero) demoFlags) ∧
    "patients" ∉ resultKeys (sync_all (fun _ => Except.ok Stats.zero) demoFlags) :=
  (C5_enable_flag_gating (fun _ => Except.ok Stats.zero) demoFlags).2.2.2 rfl rfl

/-- C6: Per-entity failure isolation in `sync_all`.  The result dict has
one entry per enabled entity type no matter which entity syncs raise —
no exception propagates out of `sync_all` and no enabled sibling is
skipped — and an enabled entity whose `sync_entity` raised `e` is
reported under its own key as the failed dict carrying `e`. -/
theorem C6_per_entity_isolation (runFn : String → Except String Stats)
    (c : PMSConnectionFlags) :
    resultKeys (sync_all runFn c) = enabledList c ∧
    (∀ ty e, ty ∈ enabledList c → (sync_entity runFn ty).result = Except.error e →
       (ty, EntityOutcome.failed e) ∈ sync_all runFn c) := by
  refine ⟨resultKeys_eq_enabledList runFn c, ?_⟩
  intro ty e hty herr
  have hout : outcomeOf runFn ty = EntityOutcome.failed e := by
    unfold outcomeOf
    rw [herr]
  rw [sync_all_eq]
  unfold enabledList at hty
  rcases List.mem_append.mp hty with h12 | h3
  · rcases List.mem_append.mp h12 with h1 | h2
    · by_cases hp : truthy c.sync_patients = true
      · rw [if_pos hp] at h1
        rw [List.mem_singleton.mp h1] at hout ⊢
        refine List.mem_append_left _ (List.mem_append_left _ ?_)
        rw [if_pos hp, ← hout]
        exact List.mem_singleton.mpr rfl
      · rw [if_neg hp] at h1
        cases h1
    · by_cases hp : truthy c.sync_appointments = true
      · rw [if_pos hp] at h2
        rw [List.mem_singleton.mp h2] at hout ⊢
        refine List.mem_append_left _ (List.mem_append_right _ ?_)
        rw [if_pos hp, ← hout]
        exact List.mem_singleton.mpr rfl
      · rw [if_neg hp] at h2
        cases h2
  · by_cases hp : truthy c.sync_providers = true
    · rw [if_pos hp] at h3
      rw [List.mem_singleton.mp h3] at hout ⊢
      refine List.mem_append_right _ ?_
      rw [if_pos hp, ← hout]
      exact List.mem_singleton.mpr rfl
    · rw [if_neg hp] at h3
      cases h3

/-- An entity-sync oracle that fails exactly on appointments. -/
def demoFailingRunFn : String → Except String Stats :=
  fun ty => if ty = "appointments" then Except.error "boom" else Except.ok Stats.zero

/-- Closed witness for C6: with appointments enabled and its sync
raising, the failure appears in the aggregate result. -/
theorem C6_per_entity_isolation_witness :
    ("appointments", EntityOutcome.failed "boom") ∈ sync_all demoFailingRunFn demoFlags ∧
    resultKeys (sync_all demoFailingRunFn demoFlags) = enabledList demoFlags :=
  ⟨(C6_per_entity_isolation demoFailingRunFn demoFlags).2 "appointments" "boom"
      (by decide) rfl,
   (C6_per_entity_isolation demoFailingRunFn demoFlags).1⟩

/-- C10: `sync_all` only ever produces keys among patients, appointments
and providers; the `sync_treatments` and `sync_billing` flags are never
consulted (changing them changes nothing); and `sync_entity` on any
entity type outside that set raises `Unknown entity type: ...` after
recording a FAILED history row for the attempt. -/
theorem C10_entity_scope (runFn : String → Except String Stats)
    (c : PMSConnectionFlags) :
    (∀ k, k ∈ resultKeys (sync_all runFn c) → k ∈ knownEntityTypes) ∧
    (∀ tb bb, sync_all runFn
        { c with sync_treatments := tb, sync_billing := bb } = sync_all runFn c) ∧
    (∀ ty, ty ∉ knownEntityTypes →
       (sync_entity runFn ty).result = Except.error ("Unknown entity type: " ++ ty) ∧
       (sync_entity runFn ty).hist.status = "FAILED" ∧
       (sync_entity runFn ty).trace =
         [HistWrite.create "RUNNING", HistWrite.setStatus "FAILED"]) := by
  refine ⟨?_, ?_, ?_⟩
  · intro k hk
    rw [resultKeys_eq_enabledList] at hk
    unfold enabledList at hk
    rcases List.mem_append.mp hk with h12 | h3
    · rcases List.mem_append.mp h12 with h1 | h2
      · by_cases hp : truthy c.sync_patients = true
        · rw [if_pos hp] at h1
          rw [List.mem_singleton.mp h1]
          decide
        · rw [if_neg hp] at h1
          cases h1
      · by_cases hp : truthy c.sync_appointments = true
        · rw [if_pos hp] at h2
          rw [List.mem_singleton.mp h2]
          decide
        · rw [if_neg hp] at h2
          cases h2
    · by_cases hp : truthy c.sync_providers = true
      · rw [if_pos hp] at h3
        rw [List.mem_singleton.mp h3]
        decide
      · rw [if_neg hp] at h3
        cases h3
  · intro tb bb
    rfl
  · intro ty hty
    have h : (if ty ∈ knownEntityTypes then runFn ty
              else Except.error ("Unknown entity type: " ++ ty)) =
        Except.error ("Unknown entity type: " ++ ty) := if_neg hty
    unfold sync_entity
    rw [h]
    exact ⟨rfl, rfl, rfl⟩

/-- Closed witness for C10 at the treatments entity type and concrete
flags. -/
theorem C10_entity_scope_witness :
    (sync_entity (fun _ => Except.ok Stats.zero) "treatments").result =
      Except.error ("Unknown entity type: " ++ "treatments") ∧
    sync_all (fun _ => Except.ok Stats.zero)
        { demoFlags with sync_treatments := some true, sync_billing := some true } =
      sync_all (fun _ => Except.ok Stats.zero) demoFlags ∧
    "appointments" ∈ knownEntityTypes :=
  ⟨((C10_entity_scope (fun _ => Except.ok Stats.zero) demoFlags).2.2 "treatments"
      (by decide)).1,
   (C10_entity_scope (fun _ => Except.ok Stats.zero) demoFlags).2.1 (some true) (some true),
   (C10_entity_scope (fun _ => Except.ok Stats.zero) demoFlags).1 "appointments"
      (by
        rw [resultKeys_eq_enabledList]
        decide)⟩

/-! ## Date-normalization claims -/

/-- C3 counterexample: the claim fails on the code.  `parse_xero_date`
calls `datetime.fromtimestamp` without a timezone, so the result is the
*local* calendar date, not the UTC one.  1700000000000 ms is
2023-11-14 22:13:20 UTC: on any machine whose local offset is +02:00
(7200 s) the function returns 2023-11-15, not the UTC date 2023-11-14
the claim demands for every environment. -/
theorem C3_counterexample :
    parse_xero_date 7200 (PyVal.pystr "/Date(1700000000000+0000)/") =
      Except.ok (some { year := 2023, month := 11, day := 15 }) ∧
    ({ year := 2023, month := 11, day := 15 } : CivilDate) ≠
      { year := 2023, month := 11, day := 14 } :=
  ⟨rfl, by decide⟩

/-- C3 amended: for every string matching the epoch-wrapped pattern with
millisecond value `ms`, `parse_xero_date` returns the calendar date of
the instant `ms / 1000` seconds after the epoch *shifted by the server's
local UTC offset* `off` (provided the result is representable); under a
UTC local timezone (`off = 0`) this is the UTC date of
`epoch_ms / 1000`, and the scenario string yields 2023-11-14. -/
theorem C3_epoch_date_local (off : Int) (s : String) (ms : Nat)
    (hm : matchDateToken s = some ms)
    (hr : 1 ≤ (civilFromDays (Int.fdiv ((ms : Int) + off * 1000) 86400000)).year ∧
          (civilFromDays (Int.fdiv ((ms : Int) + off * 1000) 86400000)).year ≤ 9999) :
    parse_xero_date off (PyVal.pystr s) =
      Except.ok (some (civilFromDays (Int.fdiv ((ms : Int) + off * 1000) 86400000))) := by
  have hft : fromtimestampDate off ms =
      Except.ok (civilFromDays (Int.fdiv ((ms : Int) + off * 1000) 86400000)) := by
    unfold fromtimestampDate
    rw [if_neg (by
      rw [not_or]
      constructor <;> omega)]
  unfold parse_xero_date
  dsimp only
  rw [hm]
  dsimp only
  rw [hft]

/-- Closed witness for the amended C3: the scenario string at a UTC local
timezone normalizes to 2023-11-14. -/
theorem C3_epoch_date_local_witness :
    matchDateToken "/Date(1700000000000+0000)/" = some 1700000000000 ∧
    parse_xero_date 0 (PyVal.pystr "/Date(1700000000000+0000)/") =
      Except.ok (some { year := 2023, month := 11, day := 14 }) := by
  constructor
  · rfl
  · have h := C3_epoch_date_local 0 "/Date(1700000000000+0000)/" 1700000000000 rfl
      (by decide)
    rw [h]
    rfl

/-- C9: the date parsers are total on absent, non-string and unparseable
inputs, but NOT on every `/Date(...)/` string: a sufficiently large
millisecond integer makes `datetime.fromtimestamp` raise, and the
`/Date(...)/` branch has no exception handler, so both `parse_xero_date`
and `parse_xero_datetime` raise instead of returning null — the code
violates the never-raise claim its own ISO branch (which catches
`ValueError`) and the spec intend. -/
theorem C9_totality_violation :
    parse_xero_date 0 (PyVal.pystr "/Date(100000000000000000000+0000)/") =
      Except.error "timestamp out of range" ∧
    parse_xero_datetime 0 (PyVal.pystr "/Date(100000000000000000000+0000)/") =
      Except.error "timestamp out of range" ∧
    parse_xero_date 0 PyVal.pynone = Except.ok none ∧
    parse_xero_date 0 PyVal.pyother = Except.ok none ∧
    parse_xero_date 0 (PyVal.pystr "not a date") = Except.ok none ∧
    parse_xero_datetime 0 PyVal.pynone = Except.ok none ∧
    parse_xero_datetime 0 PyVal.pyother = Except.ok none ∧
    parse_xero_datetime 0 (PyVal.pystr "not a date") = Except.ok none :=
  ⟨rfl, rfl, rfl, rfl, rfl, rfl, rfl, rfl⟩

end Workfin
